import Mathlib

/-!
Shallow embedding of the geocmu field-data-collection map application
(drawing tools, feature store, measurement overlay, CSV export encoder),
with theorems checking the natural-language specification against the
embedded code.

Numeric values are modelled with `ℚ` where the source performs only
field operations, and with `ℝ` where the source calls transcendental
functions (`Math.sin`, `Math.cos`, `Math.PI`).
-/

namespace GeoCmu

/-- A latitude/longitude pair as carried by `L.LatLng` (degrees),
modelled over `ℚ`. -/
structure LatLngQ where
  lat : ℚ
  lng : ℚ
  deriving DecidableEq, Repr

/-- Componentwise vector addition on lat/lng pairs. -/
def vecAdd (a b : LatLngQ) : LatLngQ := ⟨a.lat + b.lat, a.lng + b.lng⟩

/-- Componentwise vector subtraction on lat/lng pairs. -/
def vecSub (a b : LatLngQ) : LatLngQ := ⟨a.lat - b.lat, a.lng - b.lng⟩

/-- Scalar multiplication on lat/lng pairs. -/
def vecScale (c : ℚ) (a : LatLngQ) : LatLngQ := ⟨c * a.lat, c * a.lng⟩

/-- Dot product of two lat/lng vectors. -/
def vecDot (a b : LatLngQ) : ℚ := a.lat * b.lat + a.lng * b.lng

/-- Embedding of `calculateRectangleCorners` from
`src/unnamed/part_007` (DrawingTools), lines 77-110: three-point
rectangle construction.  `p1`,`p2` span the first edge; the third
point's perpendicular offset from that edge gives the depth.  When the
first edge is degenerate (`v1LengthSquared === 0`) the source returns
`[p1, p2, p3, p1]` without dividing. -/
def calculateRectangleCorners (p1 p2 p3 : LatLngQ) : List LatLngQ :=
  let v1lat := p2.lat - p1.lat
  let v1lng := p2.lng - p1.lng
  let v2lat := p3.lat - p1.lat
  let v2lng := p3.lng - p1.lng
  let dotProduct := v1lat * v2lat + v1lng * v2lng
  let v1LengthSquared := v1lat * v1lat + v1lng * v1lng
  if v1LengthSquared = 0 then [p1, p2, p3, p1]
  else
    let projection := dotProduct / v1LengthSquared
    let projLat := p1.lat + projection * v1lat
    let projLng := p1.lng + projection * v1lng
    let perpLat := p3.lat - projLat
    let perpLng := p3.lng - projLng
    [p1, p2, ⟨p2.lat + perpLat, p2.lng + perpLng⟩,
      ⟨p1.lat + perpLat, p1.lng + perpLng⟩, p1]

/-- The claim's notion: orthogonal projection of `p3` onto the line
through `p1` and `p2` (the edge `p1p2`). -/
def projectionOntoEdge (p1 p2 p3 : LatLngQ) : LatLngQ :=
  vecAdd p1 (vecScale (vecDot (vecSub p2 p1) (vecSub p3 p1) /
    vecDot (vecSub p2 p1) (vecSub p2 p1)) (vecSub p2 p1))

/-- The claim's notion: `p3` minus its projection onto edge `p1p2`. -/
def perpendicularVector (p1 p2 p3 : LatLngQ) : LatLngQ :=
  vecSub p3 (projectionOntoEdge p1 p2 p3)

lemma sum_sq_eq_zero_iff (a b : ℚ) : a * a + b * b = 0 ↔ a = 0 ∧ b = 0 := by
  constructor
  · intro h
    constructor <;> nlinarith [mul_self_nonneg a, mul_self_nonneg b]
  · rintro ⟨ha, hb⟩
    simp [ha, hb]

/-- C2: for `p1 ≠ p2` the finalized rectangle ring is the closed
5-point list `[corner1, corner2, corner2 + perp, corner1 + perp,
corner1]` with `perp` the component of `p3` orthogonal to edge
`p1p2` (and that offset really is perpendicular to the first edge). -/
theorem rectangle_three_point_ring (p1 p2 p3 : LatLngQ) (h : p1 ≠ p2) :
    calculateRectangleCorners p1 p2 p3 =
      [p1, p2, vecAdd p2 (perpendicularVector p1 p2 p3),
        vecAdd p1 (perpendicularVector p1 p2 p3), p1] ∧
    vecDot (vecSub p2 p1) (perpendicularVector p1 p2 p3) = 0 := by
  have hne : ¬((p2.lat - p1.lat) * (p2.lat - p1.lat) +
      (p2.lng - p1.lng) * (p2.lng - p1.lng) = 0) := by
    intro hz
    rcases (sum_sq_eq_zero_iff _ _).mp hz with ⟨ha, hb⟩
    apply h
    cases p1; cases p2
    simp only [LatLngQ.mk.injEq]
    constructor <;> [linarith; linarith]
  constructor
  · simp only [calculateRectangleCorners, projectionOntoEdge,
      perpendicularVector, vecAdd, vecSub, vecScale, vecDot, if_neg hne]
  · simp only [projectionOntoEdge, perpendicularVector, vecAdd, vecSub,
      vecScale, vecDot]
    field_simp
    ring

/-- Witness for C2 at the spec's concrete input
`p1=(0,0), p2=(0,0.001), p3=(0.001,0.001)` in (lng,lat) order. -/
theorem rectangle_three_point_ring_witness :
    (⟨0, 0⟩ : LatLngQ) ≠ ⟨0.001, 0⟩ ∧
    calculateRectangleCorners ⟨0, 0⟩ ⟨0.001, 0⟩ ⟨0.001, 0.001⟩ =
      [⟨0, 0⟩, ⟨0.001, 0⟩,
        vecAdd ⟨0.001, 0⟩ (perpendicularVector ⟨0, 0⟩ ⟨0.001, 0⟩ ⟨0.001, 0.001⟩),
        vecAdd ⟨0, 0⟩ (perpendicularVector ⟨0, 0⟩ ⟨0.001, 0⟩ ⟨0.001, 0.001⟩),
        ⟨0, 0⟩] ∧
    vecDot (vecSub ⟨0.001, 0⟩ ⟨0, 0⟩)
      (perpendicularVector ⟨0, 0⟩ ⟨0.001, 0⟩ ⟨0.001, 0.001⟩) = 0 :=
  ⟨by simp [LatLngQ.mk.injEq]; norm_num,
    rectangle_three_point_ring ⟨0, 0⟩ ⟨0.001, 0⟩ ⟨0.001, 0.001⟩
      (by simp [LatLngQ.mk.injEq]; norm_num)⟩

/-- C10: on a degenerate first edge (squared length `0`, i.e. the
first two construction points coincide) the source's guard returns the
4-element list `[p1, p2, p3, p1]` and no division is performed. -/
theorem rectangle_degenerate_guard (p1 p2 p3 : LatLngQ)
    (h : (p2.lat - p1.lat) * (p2.lat - p1.lat) +
      (p2.lng - p1.lng) * (p2.lng - p1.lng) = 0) :
    calculateRectangleCorners p1 p2 p3 = [p1, p2, p3, p1] := by
  simp only [calculateRectangleCorners, if_pos h]

/-- Witness for C10 at coincident construction points `(0,0)`. -/
theorem rectangle_degenerate_guard_witness :
    ((⟨0, 0⟩ : LatLngQ).lat - (⟨0, 0⟩ : LatLngQ).lat) *
        ((⟨0, 0⟩ : LatLngQ).lat - (⟨0, 0⟩ : LatLngQ).lat) +
        ((⟨0, 0⟩ : LatLngQ).lng - (⟨0, 0⟩ : LatLngQ).lng) *
        ((⟨0, 0⟩ : LatLngQ).lng - (⟨0, 0⟩ : LatLngQ).lng) = 0 ∧
    calculateRectangleCorners ⟨0, 0⟩ ⟨0, 0⟩ ⟨1, 2⟩ =
      [⟨0, 0⟩, ⟨0, 0⟩, ⟨1, 2⟩, ⟨0, 0⟩] :=
  ⟨by simp, rectangle_degenerate_guard ⟨0, 0⟩ ⟨0, 0⟩ ⟨1, 2⟩ (by simp)⟩

/-! ### Feature store (MapPlayground.tsx) -/

/-- The feature-store slice of `MapPlayground`'s React state:
`drawnFeatures` (ordered collection) and `undoStack` (discard stack). -/
structure StoreState (α : Type) where
  drawnFeatures : List α
  undoStack : List α
  deriving DecidableEq, Repr

/-- Embedding of `handleFeatureDrawn` (MapPlayground.tsx lines
169-172): append the feature and clear the discard stack. -/
def handleFeatureDrawn {α : Type} (f : α) (s : StoreState α) : StoreState α :=
  ⟨s.drawnFeatures ++ [f], []⟩

/-- Embedding of `handleUndo` (MapPlayground.tsx lines 199-210):
no-op on an empty store, else pop the last-appended feature and push
it onto the discard stack. -/
def handleUndo {α : Type} (s : StoreState α) : StoreState α :=
  match s.drawnFeatures.getLast? with
  | none => s
  | some lastFeature => ⟨s.drawnFeatures.dropLast, s.undoStack ++ [lastFeature]⟩

/-- C6: `append f` then `undoLast` restores the feature list exactly,
and the discard stack afterwards is exactly `[f]` (append cleared it
first). -/
theorem append_then_undo_round_trip {α : Type} (s : StoreState α) (f : α) :
    handleUndo (handleFeatureDrawn f s) =
      ⟨s.drawnFeatures, [f]⟩ := by
  have hlast : (s.drawnFeatures ++ [f]).getLast? = some f := by simp
  simp [handleUndo, handleFeatureDrawn, hlast]

/-! ### Gesture state machine (DrawingTools, src/unnamed/part_007) -/

/-- The drawing-mode selector (`src/src/types/map.ts`). -/
inductive DrawingMode
  | noMode | marker | polyline | polygon | rectangle | circle | erase
  deriving DecidableEq, Repr

/-- The mutable gesture-local state of the `DrawingTools` effect
(part_007 lines 28-39).  Layer-valued variables (`currentShape`,
`previewLine`, `previewRectangle`) are modelled by the preview
geometry currently present on the map (`map.removeLayer` clears the
entry), and `tempMarkers` by the marker positions on the map. -/
structure GestureState where
  isDrawing : Bool
  currentShape : Option (List LatLngQ)
  startPoint : Option LatLngQ
  polygonPoints : List LatLngQ
  polylinePoints : List LatLngQ
  tempMarkers : List LatLngQ
  rectanglePoints : List LatLngQ
  rectangleStep : Nat
  previewLine : Option (List LatLngQ)
  previewRectangle : Option (List LatLngQ)
  deriving DecidableEq, Repr

/-- The state installed when the `DrawingTools` effect (re)starts
(part_007 lines 28-39): nothing accumulated, nothing on the map. -/
def initialGestureState : GestureState :=
  ⟨false, none, none, [], [], [], [], 0, none, none⟩

/-- Embedding of `onDrawingComplete` as wired by `MapPlayground`
(line 392): `() => setDrawingMode('none')`. -/
def onDrawingComplete (_mode : DrawingMode) : DrawingMode :=
  DrawingMode.noMode

/-- Embedding of the Escape branch of `handleKeyPress` (part_007 lines
667-682): remove the in-progress shape, temp markers and previews from
the map, reset every gesture variable, then call `onDrawingComplete`.
The returned `Bool` records whether `onFeatureDrawn` was invoked (it
never is on this path). -/
def handleKeyPressEscape (mode : DrawingMode) (s : GestureState) :
    GestureState × DrawingMode × Bool :=
  ({ s with
      currentShape := none
      tempMarkers := []
      previewLine := none
      previewRectangle := none
      isDrawing := false
      polygonPoints := []
      polylinePoints := []
      rectanglePoints := []
      rectangleStep := 0
      startPoint := none },
    onDrawingComplete mode, false)

/-- C3 counterexample: Escape pressed mid-polyline does NOT leave the
active drawing mode unchanged — `onDrawingComplete` sets it to
`'none'`. -/
theorem escape_mode_counterexample :
    (handleKeyPressEscape DrawingMode.polyline
      { initialGestureState with
          isDrawing := true
          polylinePoints := [⟨0, 0⟩, ⟨1, 1⟩]
          tempMarkers := [⟨0, 0⟩, ⟨1, 1⟩]
          currentShape := some [⟨0, 0⟩, ⟨1, 1⟩] }).2.1 ≠
      DrawingMode.polyline := by
  simp [handleKeyPressEscape, onDrawingComplete]

/-- C3 (amended): in every drawing mode and every in-progress gesture
state, Escape discards all accumulated points, temporary markers and
preview shapes, returns the gesture to its initial state, emits no
feature — and sets the active drawing mode to `'none'` (deactivating
the tool) rather than leaving it unchanged. -/
theorem escape_resets_gesture (mode : DrawingMode) (s : GestureState) :
    (handleKeyPressEscape mode s).1 = initialGestureState ∧
    (handleKeyPressEscape mode s).2.2 = false ∧
    (handleKeyPressEscape mode s).2.1 = DrawingMode.noMode := by
  refine ⟨?_, rfl, rfl⟩
  simp [handleKeyPressEscape, initialGestureState]

/-! ### Polyline gesture (part_007 lines 394-414 and 565-597) -/

/-- The gesture-local variables touched by the polyline mode. -/
structure PolylineState where
  isDrawing : Bool
  polylinePoints : List LatLngQ
  currentShape : Option (List LatLngQ)
  tempMarkers : List LatLngQ
  deriving DecidableEq, Repr

/-- Initial polyline gesture state (effect-local initialization). -/
def initialPolylineState : PolylineState := ⟨false, [], none, []⟩

/-- Embedding of the polyline branch of `handleMapClick` (part_007
lines 394-414): first click seeds the point list and creates the
in-progress shape; later clicks append and redraw. -/
def polylineClick (p : LatLngQ) (s : PolylineState) : PolylineState :=
  if s.isDrawing = false then
    { isDrawing := true
      polylinePoints := [p]
      tempMarkers := s.tempMarkers ++ [p]
      currentShape := some [p] }
  else
    let pts := s.polylinePoints ++ [p]
    { s with
        polylinePoints := pts
        tempMarkers := s.tempMarkers ++ [p]
        currentShape := if s.currentShape.isSome then some pts else s.currentShape }

/-- Embedding of `calculatePolylineDistance` (part_007 lines 685-691):
sum of the map-library point-to-point distances over consecutive
pairs.  `dist` stands for the external `L.LatLng.distanceTo`. -/
def calculatePolylineDistance (dist : LatLngQ → LatLngQ → ℚ)
    (points : List LatLngQ) : ℚ :=
  (points.zip points.tail).foldl (fun acc q => acc + dist q.1 q.2) 0

/-- The data of a finalized polyline feature as assembled by
`createFeature` on the double-click path: coordinates as `[lng, lat]`
pairs plus the derived metrics stored in `properties`. -/
structure PolylineFeature where
  coordinates : List (ℚ × ℚ)
  distance : ℚ
  pointCount : ℕ
  deriving DecidableEq, Repr

/-- Embedding of the polyline branch of `handleDoubleClick` (part_007
lines 565-597): finalize when drawing with at least 2 collected points
(by count); otherwise nothing at all happens. -/
def polylineDoubleClick (dist : LatLngQ → LatLngQ → ℚ)
    (s : PolylineState) : PolylineState × Option PolylineFeature :=
  if s.isDrawing = true ∧ 2 ≤ s.polylinePoints.length then
    let emitted : Option PolylineFeature :=
      match s.currentShape with
      | some _ => some
          ⟨s.polylinePoints.map (fun p => (p.lng, p.lat)),
            calculatePolylineDistance dist s.polylinePoints,
            s.polylinePoints.length⟩
      | none => none
    ({ s with tempMarkers := [], isDrawing := false, polylinePoints := [] },
      emitted)
  else (s, none)

/-- C5: a double-click after two clicks on the same coordinate
finalizes a zero-length 2-point line (count, not distinctness,
decides); with fewer than 2 collected points the double-click is
silently ignored (state untouched, nothing emitted); and in general
2 points by count suffice to finalize. -/
theorem polyline_double_click_finalize
    (dist : LatLngQ → LatLngQ → ℚ) (p : LatLngQ) (hp : dist p p = 0) :
    (polylineDoubleClick dist
        (polylineClick p (polylineClick p initialPolylineState))).2 =
      some ⟨[(p.lng, p.lat), (p.lng, p.lat)], 0, 2⟩ ∧
    (∀ s : PolylineState, s.polylinePoints.length < 2 →
      polylineDoubleClick dist s = (s, none)) ∧
    (∀ s : PolylineState, s.isDrawing = true → s.currentShape.isSome →
      2 ≤ s.polylinePoints.length →
      ((polylineDoubleClick dist s).2).isSome) := by
  refine ⟨?_, ?_, ?_⟩
  · simp [polylineClick, initialPolylineState, polylineDoubleClick,
      calculatePolylineDistance, hp]
  · intro s hs
    have : ¬(s.isDrawing = true ∧ 2 ≤ s.polylinePoints.length) := by
      rintro ⟨-, h2⟩; omega
    simp [polylineDoubleClick, this]
  · intro s h1 h2 h3
    rcases Option.isSome_iff_exists.mp h2 with ⟨sh, hsh⟩
    simp [polylineDoubleClick, h1, h3, hsh]

/-- Witness for C5 at the spec's scenario: two clicks at `(0,0)` then
double-click, with a distance function vanishing on equal points. -/
theorem polyline_double_click_finalize_witness :
    (fun _ _ => (0 : ℚ) : LatLngQ → LatLngQ → ℚ) ⟨0, 0⟩ ⟨0, 0⟩ = 0 ∧
    (polylineDoubleClick (fun _ _ => (0 : ℚ))
        (polylineClick ⟨0, 0⟩ (polylineClick ⟨0, 0⟩ initialPolylineState))).2 =
      some ⟨[(0, 0), (0, 0)], 0, 2⟩ :=
  ⟨rfl, (polyline_double_click_finalize (fun _ _ => (0 : ℚ)) ⟨0, 0⟩ rfl).1⟩

/-! ### Erase hit-testing (part_007 lines 290-356, MapPlayground lines
212-221)

Drawn features carry a map-library layer object.  In this app markers
are `L.Marker`, circles `L.Circle`, polygons AND three-point
rectangles `L.Polygon` (rectangles are created with `L.polygon`, so
the source's `instanceof L.Rectangle` branch is never taken for drawn
features, and both fall into the coarse `getBounds().contains` test),
and polylines `L.Polyline`.  The external map-library primitives
`LatLng.distanceTo` (meters) and the layer-point
`pointToSegmentDistance` (pixels, after `latLngToLayerPoint`
projection) are parameters of the embedding. -/

/-- The layer shapes a drawn feature can carry. -/
inductive EraseLayer
  | markerL (pos : LatLngQ)
  | circleL (center : LatLngQ) (radius : ℚ)
  | polygonL (ring : List LatLngQ)
  | polylineL (pts : List LatLngQ)
  deriving DecidableEq, Repr

/-- A drawn feature as seen by the erase hit-test: its id, its layer
(absent when `feature.layer` is null) and whether the layer is on the
map (`map.hasLayer`). -/
structure EraseFeature where
  id : String
  layer : Option EraseLayer
  onMap : Bool
  deriving DecidableEq, Repr

/-- Embedding of `L.LatLngBounds.contains`: the bounding envelope of the ring,
inclusive on the edges; an empty ring yields no valid bounds. -/
def latLngBoundsContains (ring : List LatLngQ) (p : LatLngQ) : Bool :=
  match ring with
  | [] => false
  | q :: rest =>
    let minLat := rest.foldl (fun m r => min m r.lat) q.lat
    let maxLat := rest.foldl (fun m r => max m r.lat) q.lat
    let minLng := rest.foldl (fun m r => min m r.lng) q.lng
    let maxLng := rest.foldl (fun m r => max m r.lng) q.lng
    decide (minLat ≤ p.lat ∧ p.lat ≤ maxLat ∧ minLng ≤ p.lng ∧ p.lng ≤ maxLng)

/-- Embedding of the per-feature `isWithinFeature` computation inside
the erase branch of `handleMapClick` (part_007 lines 296-330).  A
feature with no layer, or whose layer is off the map, is skipped
(`continue`), i.e. never matches. -/
def isWithinFeature (dist : LatLngQ → LatLngQ → ℚ)
    (ptSeg : LatLngQ → LatLngQ → LatLngQ → ℚ)
    (click : LatLngQ) (f : EraseFeature) : Bool :=
  match f.layer with
  | none => false
  | some l =>
    if f.onMap = false then false
    else
      match l with
      | .markerL pos => decide (dist click pos < 50)
      | .circleL center radius => decide (dist click center ≤ radius)
      | .polygonL ring => latLngBoundsContains ring click
      | .polylineL pts =>
          (List.range (pts.length - 1)).any (fun i =>
            decide (ptSeg click (pts.getD i ⟨0, 0⟩) (pts.getD (i + 1) ⟨0, 0⟩) < 20))

/-- Embedding of an erase click: the loop over `drawnFeatures` in
store order breaks at the first match and calls `onFeatureClick`,
which in `MapPlayground.handleFeatureClick` removes the feature by id
and pushes it onto the discard stack; no match leaves the store
untouched (only a transient miss indicator is shown).  The `Bool`
mirrors `foundFeature`. -/
def eraseClick (dist : LatLngQ → LatLngQ → ℚ)
    (ptSeg : LatLngQ → LatLngQ → LatLngQ → ℚ)
    (click : LatLngQ) (s : StoreState EraseFeature) :
    StoreState EraseFeature × Bool :=
  match s.drawnFeatures.find? (fun f => isWithinFeature dist ptSeg click f) with
  | some f =>
      (⟨s.drawnFeatures.filter (fun g => g.id ≠ f.id),
        s.undoStack ++ [f]⟩, true)
  | none => (s, false)

lemma find?_split {α : Type} (p : α → Bool) (l : List α) (a : α)
    (h : l.find? p = some a) :
    ∃ pre post, l = pre ++ a :: post ∧ (∀ g ∈ pre, p g = false) ∧
      p a = true := by
  induction l with
  | nil => simp at h
  | cons x xs ih =>
    by_cases hx : p x
    · rw [List.find?_cons_of_pos _ hx] at h
      refine ⟨[], xs, ?_, ?_, ?_⟩ <;> simp_all
    · rw [List.find?_cons_of_neg _ (by simpa using hx)] at h
      rcases ih h with ⟨pre, post, hl, hpre, hpa⟩
      refine ⟨x :: pre, post, by simp [hl], ?_, hpa⟩
      intro g hg
      rcases List.mem_cons.mp hg with rfl | hg'
      · simpa using hx
      · exact hpre g hg'

/-- C4: with store-unique ids, an erase click removes exactly the
first feature (in store order) whose layer matches the click — where a
marker matches within the fixed 50 m `distanceTo` threshold, a circle
within its radius, a polygon or rectangle by its bounding envelope,
and a polyline within the fixed 20 px distance of some constituent
segment — and a miss leaves the store untouched. -/
theorem erase_removes_first_match
    (dist : LatLngQ → LatLngQ → ℚ)
    (ptSeg : LatLngQ → LatLngQ → LatLngQ → ℚ)
    (click : LatLngQ) (s : StoreState EraseFeature)
    (hnd : (s.drawnFeatures.map EraseFeature.id).Nodup) :
    (∀ f, s.drawnFeatures.find?
        (fun g => isWithinFeature dist ptSeg click g) = some f →
      ∃ pre post, s.drawnFeatures = pre ++ f :: post ∧
        (∀ g ∈ pre, isWithinFeature dist ptSeg click g = false) ∧
        isWithinFeature dist ptSeg click f = true ∧
        (eraseClick dist ptSeg click s).1.drawnFeatures = pre ++ post ∧
        (eraseClick dist ptSeg click s).1.undoStack = s.undoStack ++ [f]) ∧
    (s.drawnFeatures.find?
        (fun g => isWithinFeature dist ptSeg click g) = none →
      eraseClick dist ptSeg click s = (s, false)) ∧
    (∀ f : EraseFeature, ∀ pos center : LatLngQ, ∀ radius : ℚ,
      f.onMap = true →
      (f.layer = some (.markerL pos) →
        (isWithinFeature dist ptSeg click f = true ↔ dist click pos < 50)) ∧
      (f.layer = some (.circleL center radius) →
        (isWithinFeature dist ptSeg click f = true ↔
          dist click center ≤ radius))) := by
  refine ⟨?_, ?_, ?_⟩
  · intro f hf
    rcases find?_split _ _ _ hf with ⟨pre, post, hl, hpre, hpf⟩
    have hE : eraseClick dist ptSeg click s =
        (⟨s.drawnFeatures.filter (fun g => g.id ≠ f.id),
          s.undoStack ++ [f]⟩, true) := by
      unfold eraseClick
      rw [hf]
    refine ⟨pre, post, hl, hpre, hpf, ?_, ?_⟩
    · rw [hE]
      have hnd' : ((pre ++ f :: post).map EraseFeature.id).Nodup := by
        rw [← hl]; exact hnd
      rw [List.map_append, List.map_cons] at hnd'
      have hpost : f.id ∉ post.map EraseFeature.id :=
        (List.nodup_cons.mp hnd'.of_append_right).1
      have hpre' : f.id ∉ pre.map EraseFeature.id := by
        intro hmem
        exact (List.disjoint_of_nodup_append hnd') hmem (List.mem_cons_self _ _)
      have hfilter : ∀ (l : List EraseFeature),
          f.id ∉ l.map EraseFeature.id →
          l.filter (fun g => g.id ≠ f.id) = l := by
        intro l hmem
        apply List.filter_eq_self.mpr
        intro g hg
        simp only [ne_eq, decide_eq_true_eq]
        intro hgid
        exact hmem (by simpa [← hgid] using List.mem_map_of_mem EraseFeature.id hg)
      simp only [hl, List.filter_append, List.filter_cons]
      rw [hfilter pre hpre', hfilter post hpost]
      simp
    · rw [hE]
  · intro hnone
    unfold eraseClick
    rw [hnone]
  · intro f pos center radius hmap
    constructor
    · intro hlayer
      simp [isWithinFeature, hlayer, hmap]
    · intro hlayer
      simp [isWithinFeature, hlayer, hmap]

/-- Witness for C4: a two-feature store where the click matches both a
circle and a marker; the circle, first in store order, is the one
removed. -/
theorem erase_removes_first_match_witness :
    (([⟨"a", some (.circleL ⟨0, 0⟩ 10), true⟩,
        ⟨"b", some (.markerL ⟨0, 0⟩), true⟩] :
        List EraseFeature).map EraseFeature.id).Nodup ∧
    (eraseClick (fun _ _ => 0) (fun _ _ _ => 100) ⟨0, 0⟩
        ⟨[⟨"a", some (.circleL ⟨0, 0⟩ 10), true⟩,
          ⟨"b", some (.markerL ⟨0, 0⟩), true⟩], []⟩).1.drawnFeatures =
      [] ++ [⟨"b", some (.markerL ⟨0, 0⟩), true⟩] := by
  constructor
  · decide
  · have h := (erase_removes_first_match (fun _ _ => 0) (fun _ _ _ => 100)
      ⟨0, 0⟩
      ⟨[⟨"a", some (.circleL ⟨0, 0⟩ 10), true⟩,
        ⟨"b", some (.markerL ⟨0, 0⟩), true⟩], []⟩ (by decide)).1
      ⟨"a", some (.circleL ⟨0, 0⟩ 10), true⟩ (by norm_num [isWithinFeature])
    rcases h with ⟨pre, post, hl, -, -, hdrawn, -⟩
    have hpre : pre = [] ∧
        post = [⟨"b", some (.markerL ⟨0, 0⟩), true⟩] := by
      cases pre with
      | nil => simp at hl; simp [hl]
      | cons x xs =>
        rcases hl with hl
        simp only [List.cons_append] at hl
        have hx := List.head_eq_of_cons_eq hl
        have ht := List.tail_eq_of_cons_eq hl
        subst hx
        cases xs with
        | nil => simp at ht
        | cons y ys => simp at ht
    rw [hdrawn, hpre.1, hpre.2]

/-! ### Export encoder (DataExporter, second file in CompassRose.tsx)

JavaScript numbers reaching the export encoder are decimal literals;
they are embedded as a mantissa/decimal-exponent pair (`mant / 10 ^
exp`), and `numToString` models JavaScript's default number-to-string
rendering for such values (shortest decimal form, no trailing
zeros). -/

/-- A decimal number `mant / 10 ^ exp`. -/
structure DecNum where
  mant : ℤ
  exp : ℕ
  deriving DecidableEq, Repr

/-- Remove factors of 10 from the mantissa while decimal places
remain. -/
def stripTrailingZeros : ℤ → ℕ → ℤ × ℕ
  | m, 0 => (m, 0)
  | m, k + 1 => if m % 10 = 0 then stripTrailingZeros (m / 10) k else (m, k + 1)

/-- Left-pad a digit string with zeros to width `k`. -/
def zeroPad (k : ℕ) (s : String) : String :=
  String.mk (List.replicate (k - s.length) '0') ++ s

/-- JavaScript template-literal rendering `${num}` of a decimal
number: integer part, then a dot and the fractional digits when any
remain after stripping trailing zeros. -/
def numToString (d : DecNum) : String :=
  let s := stripTrailingZeros d.mant d.exp
  if s.2 = 0 then toString s.1
  else
    let sign := if s.1 < 0 then "-" else ""
    let a := s.1.natAbs
    sign ++ toString (a / 10 ^ s.2) ++ "." ++ zeroPad s.2 (toString (a % 10 ^ s.2))

/-- Embedding of `Number.prototype.toFixed(2)`: value scaled to hundredths
(rounding half away from zero for non-negative values), printed with
exactly two decimals. -/
def toFixed2 (d : DecNum) : String :=
  let scaled : ℤ :=
    if d.exp ≤ 2 then d.mant * 10 ^ (2 - d.exp)
    else (2 * d.mant + 10 ^ (d.exp - 2)) / (2 * 10 ^ (d.exp - 2))
  let sign := if scaled < 0 then "-" else ""
  let a := scaled.natAbs
  sign ++ toString (a / 100) ++ "." ++ zeroPad 2 (toString (a % 100))

/-- The kind tag `DrawnFeature.type` (src/src/types/map.ts). -/
inductive ExpKind
  | marker | polyline | polygon | rectangle | circle
  deriving DecidableEq, Repr

/-- The string value of `feature.type`. -/
def ExpKind.typeName : ExpKind → String
  | .marker => "marker"
  | .polyline => "polyline"
  | .polygon => "polygon"
  | .rectangle => "rectangle"
  | .circle => "circle"

/-- The geometry field `DrawnFeature.coordinates`: `number[][]` (a list of `[lng, lat]`
positions, used by marker/polyline/circle) or `number[][][]` (a list
of rings, used by polygon/rectangle). -/
inductive ExpCoords
  | flat (ps : List (DecNum × DecNum))
  | rings (rs : List (List (DecNum × DecNum)))
  deriving DecidableEq, Repr

/-- The slice of `DrawnFeature` consumed by the export encoder:
identity, kind, geometry, creation timestamp, the optional derived
metrics stored in `properties`, and the custom attribute map. -/
structure ExpFeature where
  id : String
  type : ExpKind
  coordinates : ExpCoords
  timestamp : ℤ
  area : Option DecNum
  distance : Option DecNum
  radius : Option DecNum
  attributes : List (String × String)
  deriving DecidableEq, Repr

/-- One `lng lat` coordinate pair as rendered inside WKT. -/
def coordPair (c : DecNum × DecNum) : String :=
  numToString c.1 ++ " " ++ numToString c.2

/-- JavaScript `feature.properties.radius || 100`: `undefined` and the
falsy value `0` both fall back to `100`. -/
def jsRadiusOr100 (r : Option DecNum) : DecNum :=
  match r with
  | some v => if v.mant = 0 then ⟨100, 0⟩ else v
  | none => ⟨100, 0⟩

/-- Embedding of `formatCoordinates` (DataExporter lines 71-86).  The
surrounding double quotes are literal characters of the returned
string (the source builds `` `"POINT(...)"` ``); for circles the
`BUFFER` suffix stands outside the quotes. -/
def formatCoordinates (f : ExpFeature) : String :=
  match f.type with
  | .marker =>
    match f.coordinates with
    | .flat (c :: _) => "\"POINT(" ++ coordPair c ++ ")\""
    | _ => ""
  | .polyline =>
    match f.coordinates with
    | .flat ps =>
        "\"LINESTRING(" ++ String.intercalate ", " (ps.map coordPair) ++ ")\""
    | _ => ""
  | .circle =>
    match f.coordinates with
    | .flat (c :: _) =>
        "\"POINT(" ++ coordPair c ++ ")\" BUFFER " ++
          numToString (jsRadiusOr100 f.radius)
    | _ => ""
  | _ =>
    match f.coordinates with
    | .rings (ring :: _) =>
        "\"POLYGON((" ++ String.intercalate ", " (ring.map coordPair) ++ "))\""
    | _ => ""

/-- Embedding of `Set.prototype.add` on a list kept in insertion order. -/
def jsSetAdd (acc : List String) (k : String) : List String :=
  if k ∈ acc then acc else acc ++ [k]

/-- Embedding of `getAllAttributeKeys` (DataExporter lines 88-96):
collect every attribute key into a `Set`, then `Array.from(keys)
.sort()` — default lexicographic ascending string sort. -/
def getAllAttributeKeys (fs : List ExpFeature) : List String :=
  (fs.foldl (fun acc f => f.attributes.foldl (fun a kv => jsSetAdd a kv.1) acc)
    []).insertionSort (· ≤ ·)

/-- CSV field escaping (DataExporter lines 139-145): values containing
a comma, double quote or newline are wrapped in double quotes with
inner quotes doubled. -/
def escapeCSV (s : String) : String :=
  if s.contains ',' || s.contains '"' || s.contains '\n' then
    "\"" ++ (s.replace "\"" "\"\"") ++ "\""
  else s

/-- The header row of `generateCSV` (DataExporter lines 109-119). -/
def csvHeaders (includeGeometry includeAttributes : Bool)
    (fs : List ExpFeature) : List String :=
  ["id", "feature_type", "created_date", "created_time"]
    ++ (if includeGeometry then ["geometry_wkt"] else [])
    ++ (if fs.any (fun f => f.area.isSome) then ["area_m2"] else [])
    ++ (if fs.any (fun f => f.distance.isSome) then ["length_m"] else [])
    ++ (if fs.any (fun f => f.radius.isSome) then ["radius_m"] else [])
    ++ (if includeAttributes then getAllAttributeKeys fs else [])

/-- One data row of `generateCSV` (DataExporter lines 122-146),
including the per-cell escaping.  `dateStr`/`timeStr` stand for the
external locale formatting of `new Date(timestamp)`. -/
def csvRow (includeGeometry includeAttributes : Bool)
    (dateStr timeStr : ℤ → String) (fs : List ExpFeature)
    (f : ExpFeature) : List String :=
  ([f.id, f.type.typeName, dateStr f.timestamp, timeStr f.timestamp]
    ++ (if includeGeometry then [formatCoordinates f] else [])
    ++ (if fs.any (fun g => g.area.isSome) then
          [(f.area.map toFixed2).getD ""] else [])
    ++ (if fs.any (fun g => g.distance.isSome) then
          [(f.distance.map toFixed2).getD ""] else [])
    ++ (if fs.any (fun g => g.radius.isSome) then
          [(f.radius.map toFixed2).getD ""] else [])
    ++ (if includeAttributes then
          (getAllAttributeKeys fs).map (fun k => (f.attributes.lookup k).getD "")
        else [])).map escapeCSV

/-- Embedding of `generateCSV` (DataExporter lines 98-151): empty
input yields the empty string, else a UTF-8 BOM, the joined header
row, and one joined row per feature. -/
def generateCSV (includeGeometry includeAttributes : Bool)
    (dateStr timeStr : ℤ → String) (fs : List ExpFeature) : String :=
  if fs.length = 0 then ""
  else
    "\uFEFF" ++ String.intercalate "\n"
      (String.intercalate "," (csvHeaders includeGeometry includeAttributes fs)
        :: fs.map (fun f => String.intercalate ","
            (csvRow includeGeometry includeAttributes dateStr timeStr fs f)))

/-- C7: `formatCoordinates` renders WKT per kind — `POINT` for
markers, `LINESTRING` for polylines, `POLYGON` for polygons and
rectangles, `POINT ... BUFFER radius` for circles (the enclosing
double quotes are literal characters of the returned string, exactly
as the spec's quoted literal shows) — and on the concrete point
feature `(100.523, 13.736)` yields exactly `"POINT(100.523 13.736)"`
including those quote characters. -/
theorem format_coordinates_wkt :
    (∀ (i : String) (ts : ℤ) (a d r : Option DecNum)
        (attrs : List (String × String)) (c : DecNum × DecNum)
        (rest : List (DecNum × DecNum)),
      formatCoordinates ⟨i, .marker, .flat (c :: rest), ts, a, d, r, attrs⟩ =
        "\"POINT(" ++ coordPair c ++ ")\"") ∧
    (∀ (i : String) (ts : ℤ) (a d r : Option DecNum)
        (attrs : List (String × String)) (ps : List (DecNum × DecNum)),
      formatCoordinates ⟨i, .polyline, .flat ps, ts, a, d, r, attrs⟩ =
        "\"LINESTRING(" ++ String.intercalate ", " (ps.map coordPair) ++ ")\"") ∧
    (∀ (i : String) (ts : ℤ) (a d r : Option DecNum)
        (attrs : List (String × String)) (ring : List (DecNum × DecNum))
        (rest : List (List (DecNum × DecNum))),
      formatCoordinates ⟨i, .polygon, .rings (ring :: rest), ts, a, d, r, attrs⟩ =
        "\"POLYGON((" ++ String.intercalate ", " (ring.map coordPair) ++ "))\"" ∧
      formatCoordinates ⟨i, .rectangle, .rings (ring :: rest), ts, a, d, r, attrs⟩ =
        "\"POLYGON((" ++ String.intercalate ", " (ring.map coordPair) ++ "))\"") ∧
    (∀ (i : String) (ts : ℤ) (a d r : Option DecNum)
        (attrs : List (String × String)) (c : DecNum × DecNum)
        (rest : List (DecNum × DecNum)),
      formatCoordinates ⟨i, .circle, .flat (c :: rest), ts, a, d, r, attrs⟩ =
        "\"POINT(" ++ coordPair c ++ ")\" BUFFER " ++
          numToString (jsRadiusOr100 r)) ∧
    formatCoordinates
        ⟨"p1", .marker, .flat [(⟨100523, 3⟩, ⟨13736, 3⟩)], 0,
          none, none, none, []⟩ =
      "\"POINT(100.523 13.736)\"" :=
  ⟨fun _ _ _ _ _ _ _ _ => rfl, fun _ _ _ _ _ _ _ => rfl,
    fun _ _ _ _ _ _ _ _ => ⟨rfl, rfl⟩, fun _ _ _ _ _ _ _ _ => rfl, rfl⟩

lemma not_mem_ite_singleton (x y : String) (b : Bool) (h : x ≠ y) :
    x ∉ (if b then [y] else []) := by
  cases b <;> simp [h]

/-- C8: with geometry inclusion disabled the generated CSV has no
`geometry_wkt` column: the header row omits it (as long as no custom
attribute is itself named `geometry_wkt`) and every data row has
exactly one cell per remaining header, independent of the attribute
toggle. -/
theorem csv_omits_geometry_when_disabled
    (incAttrs : Bool) (dateStr timeStr : ℤ → String) (fs : List ExpFeature)
    (hkeys : "geometry_wkt" ∉ getAllAttributeKeys fs) :
    "geometry_wkt" ∉ csvHeaders false incAttrs fs ∧
    (∀ f, (csvRow false incAttrs dateStr timeStr fs f).length =
      (csvHeaders false incAttrs fs).length) := by
  constructor
  · intro hmem
    simp only [csvHeaders, Bool.false_eq_true, if_false, List.append_nil,
      List.nil_append, List.mem_append, List.append_assoc] at hmem
    rcases hmem with h | h | h | h | h
    · simp at h
    · exact not_mem_ite_singleton _ _ _ (by decide) h
    · exact not_mem_ite_singleton _ _ _ (by decide) h
    · exact not_mem_ite_singleton _ _ _ (by decide) h
    · cases incAttrs with
      | false => simp at h
      | true => exact hkeys (by simpa using h)
  · intro f
    simp only [csvRow, csvHeaders, List.length_map, List.length_append,
      apply_ite (List.length (α := String))]
    simp

/-- Witness for C8: a one-feature store with a `name` attribute,
attributes included, geometry excluded. -/
theorem csv_omits_geometry_when_disabled_witness :
    "geometry_wkt" ∉ getAllAttributeKeys
      [⟨"f1", .marker, .flat [(⟨1, 0⟩, ⟨2, 0⟩)], 0, none, none, none,
        [("name", "x")]⟩] ∧
    "geometry_wkt" ∉ csvHeaders false true
      [⟨"f1", .marker, .flat [(⟨1, 0⟩, ⟨2, 0⟩)], 0, none, none, none,
        [("name", "x")]⟩] := by
  have hkeys : "geometry_wkt" ∉ getAllAttributeKeys
      [⟨"f1", .marker, .flat [(⟨1, 0⟩, ⟨2, 0⟩)], 0, none, none, none,
        [("name", "x")]⟩] := by
    simp [getAllAttributeKeys, jsSetAdd, List.insertionSort, List.orderedInsert]
  exact ⟨hkeys,
    (csv_omits_geometry_when_disabled true (fun _ => "d") (fun _ => "t")
      _ hkeys).1⟩

lemma mem_jsSetAdd (acc : List String) (x k : String) :
    k ∈ jsSetAdd acc x ↔ k ∈ acc ∨ k = x := by
  by_cases hx : x ∈ acc
  · simp only [jsSetAdd, if_pos hx]
    constructor
    · exact Or.inl
    · rintro (h | rfl)
      · exact h
      · exact hx
  · simp [jsSetAdd, hx]

lemma nodup_jsSetAdd (acc : List String) (x : String) (h : acc.Nodup) :
    (jsSetAdd acc x).Nodup := by
  by_cases hx : x ∈ acc
  · simpa [jsSetAdd, hx] using h
  · simp [jsSetAdd, hx, List.nodup_append, h]

lemma mem_attr_fold (l : List (String × String)) (acc : List String)
    (k : String) :
    k ∈ l.foldl (fun a kv => jsSetAdd a kv.1) acc ↔
      k ∈ acc ∨ ∃ kv ∈ l, kv.1 = k := by
  induction l generalizing acc with
  | nil => simp
  | cons kv rest ih =>
    rw [List.foldl_cons, ih, mem_jsSetAdd]
    constructor
    · rintro ((h | h) | ⟨kv', h1, h2⟩)
      · exact Or.inl h
      · exact Or.inr ⟨kv, by simp, h.symm⟩
      · exact Or.inr ⟨kv', by simp [h1], h2⟩
    · rintro (h | ⟨kv', h1, h2⟩)
      · exact Or.inl (Or.inl h)
      · rcases List.mem_cons.mp h1 with rfl | h1'
        · exact Or.inl (Or.inr h2.symm)
        · exact Or.inr ⟨kv', h1', h2⟩

lemma nodup_attr_fold (l : List (String × String)) (acc : List String)
    (h : acc.Nodup) :
    (l.foldl (fun a kv => jsSetAdd a kv.1) acc).Nodup := by
  induction l generalizing acc with
  | nil => simpa
  | cons kv rest ih => exact ih _ (nodup_jsSetAdd _ _ h)

lemma mem_keys_fold (fs : List ExpFeature) (acc : List String) (k : String) :
    k ∈ fs.foldl
        (fun acc f => f.attributes.foldl (fun a kv => jsSetAdd a kv.1) acc)
        acc ↔
      k ∈ acc ∨ ∃ f ∈ fs, ∃ kv ∈ f.attributes, kv.1 = k := by
  induction fs generalizing acc with
  | nil => simp
  | cons f rest ih =>
    rw [List.foldl_cons, ih, mem_attr_fold]
    constructor
    · rintro ((h | ⟨kv, h1, h2⟩) | ⟨f', h1, h2⟩)
      · exact Or.inl h
      · exact Or.inr ⟨f, by simp, kv, h1, h2⟩
      · exact Or.inr ⟨f', by simp [h1], h2⟩
    · rintro (h | ⟨f', h1, h2⟩)
      · exact Or.inl (Or.inl h)
      · rcases List.mem_cons.mp h1 with rfl | h1'
        · exact Or.inl (Or.inr h2)
        · exact Or.inr ⟨f', h1', h2⟩

lemma nodup_keys_fold (fs : List ExpFeature) (acc : List String)
    (h : acc.Nodup) :
    (fs.foldl
      (fun acc f => f.attributes.foldl (fun a kv => jsSetAdd a kv.1) acc)
      acc).Nodup := by
  induction fs generalizing acc with
  | nil => simpa
  | cons f rest ih => exact ih _ (nodup_attr_fold _ _ h)

/-- C9: the custom-attribute columns are exactly the distinct
attribute keys observed across the exported features, in ascending
lexicographic order — hence deterministic: any two feature lists
exposing the same key set produce the same column list. -/
theorem attribute_columns_sorted_distinct (fs : List ExpFeature) :
    (getAllAttributeKeys fs).Sorted (· ≤ ·) ∧
    (getAllAttributeKeys fs).Nodup ∧
    (∀ k, k ∈ getAllAttributeKeys fs ↔
      ∃ f ∈ fs, ∃ kv ∈ f.attributes, kv.1 = k) ∧
    (∀ fs' : List ExpFeature,
      (∀ k, (∃ f ∈ fs, ∃ kv ∈ f.attributes, kv.1 = k) ↔
        (∃ f ∈ fs', ∃ kv ∈ f.attributes, kv.1 = k)) →
      getAllAttributeKeys fs = getAllAttributeKeys fs') := by
  have hsorted : ∀ gs : List ExpFeature,
      (getAllAttributeKeys gs).Sorted (· ≤ ·) :=
    fun gs => List.sorted_insertionSort _ _
  have hnodup : ∀ gs : List ExpFeature, (getAllAttributeKeys gs).Nodup :=
    fun gs => ((List.perm_insertionSort _ _).nodup_iff).mpr
      (nodup_keys_fold gs [] List.nodup_nil)
  have hmem : ∀ (gs : List ExpFeature) (k : String),
      k ∈ getAllAttributeKeys gs ↔
        ∃ f ∈ gs, ∃ kv ∈ f.attributes, kv.1 = k := by
    intro gs k
    rw [getAllAttributeKeys, (List.perm_insertionSort _ _).mem_iff,
      mem_keys_fold]
    simp
  refine ⟨hsorted fs, hnodup fs, hmem fs, ?_⟩
  intro fs' hext
  apply List.eq_of_perm_of_sorted ?_ (hsorted fs) (hsorted fs')
  apply (List.perm_ext_iff_of_nodup (hnodup fs) (hnodup fs')).mpr
  intro k
  rw [hmem fs k, hmem fs' k]
  exact hext k

/-- A demo feature with attribute keys `b`, `a` (insertion order). -/
def demoFeatureA : ExpFeature :=
  ⟨"f1", .marker, .flat [], 0, none, none, none, [("b", "1"), ("a", "2")]⟩

/-- A demo feature with attribute keys `a`, `c` (insertion order). -/
def demoFeatureB : ExpFeature :=
  ⟨"f2", .marker, .flat [], 0, none, none, none, [("a", "3"), ("c", "4")]⟩

/-- Witness for C9: on the two demo features the column list is
sorted, and the shared key `a` is one of the columns. -/
theorem attribute_columns_sorted_distinct_witness :
    (getAllAttributeKeys [demoFeatureA, demoFeatureB]).Sorted (· ≤ ·) ∧
    "a" ∈ getAllAttributeKeys [demoFeatureA, demoFeatureB] :=
  ⟨(attribute_columns_sorted_distinct [demoFeatureA, demoFeatureB]).1,
    ((attribute_columns_sorted_distinct [demoFeatureA, demoFeatureB]).2.2.1
        "a").mpr
      ⟨demoFeatureA, by simp, ("a", "2"), by simp [demoFeatureA], rfl⟩⟩

/-! ### Geodesic area (MeasurementTools.tsx lines 99-119 and
DrawingTools part_007 lines 693-707)

The measurement overlay's `calculateArea` is the spherical-excess
approximation; the finalized polygon feature path instead calls
`calculatePolygonArea`, a planar shoelace formula in degrees scaled by
`111320 ^ 2 * cos(lat_0)`.  Both are embedded over `ℝ` (the source
calls `Math.sin` / `Math.cos` / `Math.PI`). -/

/-- A latitude/longitude pair (degrees) over `ℝ`, for the
trigonometric area formulas. -/
structure LatLngR where
  lat : ℝ
  lng : ℝ

/-- Embedding of the measurement overlay's `calculateArea`
(MeasurementTools.tsx lines 99-119): per ring index `i` with wrapping
successor `j = (i+1) % n`, convert each latitude and longitude to
radians and accumulate `(lng2 - lng1) * (2 + sin lat1 + sin lat2)`;
return `abs(sum) * R * R / 2` with `R = 6378137`; `0` for fewer than 3
points. -/
noncomputable def calculateArea (points : List LatLngR) : ℝ :=
  if points.length < 3 then 0
  else
    |(List.range points.length).foldl (fun area i =>
        area +
          ((points.getD ((i + 1) % points.length) ⟨0, 0⟩).lng * Real.pi / 180 -
            (points.getD i ⟨0, 0⟩).lng * Real.pi / 180) *
          (2 + Real.sin ((points.getD i ⟨0, 0⟩).lat * Real.pi / 180) +
            Real.sin ((points.getD ((i + 1) % points.length) ⟨0, 0⟩).lat *
              Real.pi / 180))) 0|
      * 6378137 * 6378137 / 2

/-- Embedding of `calculatePolygonArea` (part_007 lines 693-707), the
function the double-click finalize path applies to drawn polygon
features: a planar shoelace sum over the raw degree coordinates,
`abs(sum)/2`, scaled by `111320 * 111320 * cos(lat_0 in radians)`;
`0` for fewer than 3 points. -/
noncomputable def calculatePolygonArea (points : List LatLngR) : ℝ :=
  if points.length < 3 then 0
  else
    |(List.range points.length).foldl (fun area i =>
        area + (points.getD i ⟨0, 0⟩).lat *
            (points.getD ((i + 1) % points.length) ⟨0, 0⟩).lng -
          (points.getD ((i + 1) % points.length) ⟨0, 0⟩).lat *
            (points.getD i ⟨0, 0⟩).lng) 0|
      / 2 * 111320 * 111320 *
      Real.cos ((points.getD 0 ⟨0, 0⟩).lat * Real.pi / 180)

/-- Degrees to radians. -/
noncomputable def toRad (x : ℝ) : ℝ := x * Real.pi / 180

/-- The claim's formula, written from the spec's words: over the ring
with wraparound (consecutive pairs of the list zipped with its
rotation), accumulate `(lng[j] - lng[i]) * (2 + sin(lat[i]) +
sin(lat[j]))` with angles in radians, and return `abs(sum) * R^2 / 2`
for `R = 6378137`; `0` for fewer than 3 points. -/
noncomputable def polygonAreaSquareMetersSpec (points : List LatLngR) : ℝ :=
  if points.length < 3 then 0
  else
    |(List.zipWith (fun a b =>
        (toRad b.lng - toRad a.lng) *
          (2 + Real.sin (toRad a.lat) + Real.sin (toRad b.lat)))
        points (points.rotate 1)).sum|
      * 6378137 ^ 2 / 2

lemma foldl_add_eq_sum {α : Type} (f : α → ℝ) (l : List α) (a : ℝ) :
    l.foldl (fun acc x => acc + f x) a = a + (l.map f).sum := by
  induction l generalizing a with
  | nil => simp
  | cons x xs ih => simp [List.foldl_cons, ih]; ring

lemma range_map_eq_zipWith_rotate {β : Type} [AddCommMonoid β]
    (g : LatLngR → LatLngR → β) (l : List LatLngR) (d : LatLngR) :
    (List.range l.length).map
        (fun i => g (l.getD i d) (l.getD ((i + 1) % l.length) d)) =
      List.zipWith g l (l.rotate 1) := by
  apply List.ext_getElem
  · simp
  · intro i h1 h2
    have hlen : i < l.length := by simpa using h1
    have hmod : (i + 1) % l.length < l.length := Nat.mod_lt _ (by omega)
    rw [List.getElem_map, List.getElem_range, List.getElem_zipWith]
    rw [List.getD_eq_getElem l d hlen, List.getD_eq_getElem l d hmod]
    congr 1
    rw [List.getElem_rotate]

/-- C1 (amended): the spherical-excess approximation of the claim is
the area computation applied to area measurements
(`MeasurementTools.calculateArea` equals the spec formula on every
point list, including the `< 3 points → 0` degenerate case); finalized
polygon features instead use the planar shoelace formula
`calculatePolygonArea`, which also returns `0` for fewer than 3
points. -/
theorem measurement_area_is_spherical_excess :
    (∀ points : List LatLngR,
      calculateArea points = polygonAreaSquareMetersSpec points) ∧
    (∀ points : List LatLngR, points.length < 3 →
      calculateArea points = 0 ∧ calculatePolygonArea points = 0) := by
  constructor
  · intro points
    unfold calculateArea polygonAreaSquareMetersSpec
    by_cases h : points.length < 3
    · rw [if_pos h, if_pos h]
    · rw [if_neg h, if_neg h]
      have hfold := foldl_add_eq_sum
        (fun i =>
          ((points.getD ((i + 1) % points.length) ⟨0, 0⟩).lng * Real.pi / 180 -
            (points.getD i ⟨0, 0⟩).lng * Real.pi / 180) *
          (2 + Real.sin ((points.getD i ⟨0, 0⟩).lat * Real.pi / 180) +
            Real.sin ((points.getD ((i + 1) % points.length) ⟨0, 0⟩).lat *
              Real.pi / 180)))
        (List.range points.length) 0
      rw [hfold, zero_add]
      rw [range_map_eq_zipWith_rotate
        (fun a b => (b.lng * Real.pi / 180 - a.lng * Real.pi / 180) *
          (2 + Real.sin (a.lat * Real.pi / 180) +
            Real.sin (b.lat * Real.pi / 180)))
        points ⟨0, 0⟩]
      unfold toRad
      ring
  · intro points h
    constructor
    · unfold calculateArea
      rw [if_pos h]
    · unfold calculatePolygonArea
      rw [if_pos h]

/-- A concrete (lat, lng)-degree triangle on which the two area
formulas disagree. -/
def ptsCE : List LatLngR := [⟨0, 0⟩, ⟨0, 90⟩, ⟨90, 90⟩]

/-- C1 counterexample: the claim says the spherical-excess formula is
also what finalized polygon features get, but on the triangle
`[(0,0), (0,90), (90,90)]` the drawn-polygon path's
`calculatePolygonArea` yields `4050 * 111320^2` while the
spherical-excess formula yields `pi * 6378137^2 / 4` — different
values. -/
theorem drawn_polygon_area_counterexample :
    calculatePolygonArea ptsCE ≠ polygonAreaSquareMetersSpec ptsCE := by
  have h90 : (90 : ℝ) * Real.pi / 180 = Real.pi / 2 := by ring
  have hpoly : calculatePolygonArea ptsCE = 4050 * 111320 * 111320 := by
    unfold calculatePolygonArea ptsCE
    rw [if_neg (by norm_num)]
    norm_num [List.range_succ, List.foldl, List.getD, Real.cos_zero]
  have hspec : polygonAreaSquareMetersSpec ptsCE = Real.pi * 6378137 ^ 2 / 4 := by
    unfold polygonAreaSquareMetersSpec ptsCE
    rw [if_neg (by norm_num)]
    have hr : ([⟨0, 0⟩, ⟨0, 90⟩, ⟨90, 90⟩] : List LatLngR).rotate 1 =
        [⟨0, 90⟩, ⟨90, 90⟩, ⟨0, 0⟩] := rfl
    rw [hr]
    simp only [List.zipWith, List.sum_cons, List.sum_nil]
    unfold toRad
    simp only [zero_mul, zero_div, Real.sin_zero, h90, Real.sin_pi_div_two]
    have hsum : (Real.pi / 2 - 0) * (2 + 0 + 0) +
        ((Real.pi / 2 - Real.pi / 2) * (2 + 0 + 1) +
          ((0 - Real.pi / 2) * (2 + 1 + 0) + 0)) =
        -(Real.pi / 2) := by ring
    rw [hsum]
    rw [abs_neg, abs_of_nonneg (by positivity)]
    ring
  rw [hpoly, hspec]
  intro heq
  nlinarith [Real.pi_lt_d2, Real.pi_pos]

/-- Witness for C1 at the empty point list: both area functions return
`0` below 3 points. -/
theorem measurement_area_is_spherical_excess_witness :
    ([] : List LatLngR).length < 3 ∧
    (calculateArea [] = 0 ∧ calculatePolygonArea [] = 0) :=
  ⟨by decide, measurement_area_is_spherical_excess.2 [] (by decide)⟩

end GeoCmu
